import Mathlib

/-!
Verification development for the fal-serverless-embeddings repository.

The backend service (`embedding.service.ts`) and the tRPC router
(`embedding.router.ts`) are modelled as pure functions over an in-memory
table of rows; the remote vector store and the remote inference endpoint
are external collaborators and enter the model through their interface
(`lancedbSearch` for the store's nearest-neighbor call, an `Except`-valued
argument for outcomes of remote calls).  The search-page orchestrator
(the `VideoSearch` component) is modelled as an event-driven state
machine whose step function mirrors the component's mutation handlers.

Numbers: JavaScript floats are modelled as `ℚ`, timestamps as `Int`.
-/

/-- JavaScript string truthiness as used by `r.text || null` in every read
path of the service: only the empty string is falsy, so an empty stored
field reads back as `null` and any other value is returned unchanged. -/
def emptyToNull (s : String) : Option String :=
  if s = "" then none else some s

/-- JavaScript `input.text || ""` on an optional string field, as used by
`createEmbedding` when building the stored record: a missing field is
stored as the empty string, any present string is stored as-is (the empty
string itself is falsy and also maps to `""`). -/
def orEmpty (o : Option String) : String :=
  match o with
  | none => ""
  | some s => s

/-- One stored row of the `embeddings` LanceDB table: the optional fields
are stored as plain strings (empty string for "absent"), `createdAt` is a
`Date.now()` timestamp. -/
structure Row where
  id : String
  embedding : List ℚ
  text : String
  imageUrl : String
  videoUrl : String
  createdAt : Int
  deriving DecidableEq, Repr

/-- The public `Embedding` shape produced by the service's read paths
(`getRecentEmbeddings`, `getEmbeddingById`, `getRandomEmbeddings`):
optional fields are `null`able. -/
structure EmbeddingOut where
  id : String
  embedding : List ℚ
  text : Option String
  imageUrl : Option String
  videoUrl : Option String
  createdAt : Int
  deriving DecidableEq, Repr

/-- The `SearchResult` shape produced by `searchEmbeddings`: an embedding
record together with the store's `_distance`. -/
structure SearchResultOut where
  id : String
  embedding : List ℚ
  text : Option String
  imageUrl : Option String
  videoUrl : Option String
  createdAt : Int
  distance : ℚ
  deriving DecidableEq, Repr

/-- The row-to-record mapping shared (verbatim, as an inline object
literal) by `getRecentEmbeddings`, `getEmbeddingById` and
`getRandomEmbeddings`: every `r.x || null` field goes through
`emptyToNull`. -/
def rowToEmbedding (r : Row) : EmbeddingOut :=
  { id := r.id, embedding := r.embedding, text := emptyToNull r.text,
    imageUrl := emptyToNull r.imageUrl, videoUrl := emptyToNull r.videoUrl,
    createdAt := r.createdAt }

/-- The row-to-result mapping in `searchEmbeddings`, identical to
`rowToEmbedding` plus the `_distance` column. -/
def rowToSearchResult (r : Row) (d : ℚ) : SearchResultOut :=
  { id := r.id, embedding := r.embedding, text := emptyToNull r.text,
    imageUrl := emptyToNull r.imageUrl, videoUrl := emptyToNull r.videoUrl,
    createdAt := r.createdAt, distance := d }

/-- Ordering of `(row, distance)` pairs by the distance column. -/
def byScore (a b : Row × ℚ) : Prop := a.2 ≤ b.2

instance : DecidableRel byScore := fun a b => inferInstanceAs (Decidable (a.2 ≤ b.2))

instance : IsTotal (Row × ℚ) byScore := ⟨fun a b => le_total a.2 b.2⟩

instance : IsTrans (Row × ℚ) byScore := ⟨fun _ _ _ h h' => le_trans h h'⟩

/-- Model of the external vector store's
`table.search(q).distanceType(dt).limit(limit).toArray()` call: every row
is scored by the distance function `dist` selected by the `distanceType`
argument, the rows are returned in ascending `_distance` order, truncated
to `limit`.  The store itself is an external collaborator; this models
its documented nearest-neighbor interface. -/
def lancedbSearch (tbl : List Row) (dist : List ℚ → List ℚ → ℚ) (q : List ℚ)
    (limit : Nat) : List (Row × ℚ) :=
  (List.insertionSort byScore (tbl.map (fun r => (r, dist q r.embedding)))).take limit

/-- Squared Euclidean distance over rationals.  LanceDB's `l2` distance
type reports squared L2, which agrees with it on ordering; this is the
metric `findSimilar` selects.  (Cosine and dot scores are likewise just
distance functions plugged into `lancedbSearch`.) -/
def distL2 (q v : List ℚ) : ℚ :=
  (List.zipWith (fun a b => (a - b) * (a - b)) q v).sum

/-- `EmbeddingService.searchEmbeddings(queryEmbedding, limit, distanceType,
distanceThreshold?)`: the body runs the store search inside `try`/`catch`
and maps rows through the `|| null` conversion; on a store error it
returns the empty list (as a success).  The `distanceThreshold` parameter
is declared but never used by the body ("Basic search without threshold -
let client filter if needed"). -/
def searchEmbeddings (storeResult : Except String (List (Row × ℚ)))
    (distanceThreshold : Option ℚ) : List SearchResultOut :=
  match storeResult with
  | .error _ => []
  | .ok rs => rs.map (fun p => rowToSearchResult p.1 p.2)

/-- The search pipeline on a healthy store: `searchEmbeddings` applied to
the outcome of the store's nearest-neighbor call. -/
def searchPipeline (tbl : List Row) (dist : List ℚ → List ℚ → ℚ) (q : List ℚ)
    (limit : Nat) (distanceThreshold : Option ℚ) : List SearchResultOut :=
  searchEmbeddings (.ok (lancedbSearch tbl dist q limit)) distanceThreshold

/-- Ordering of public embedding records by descending creation time, the
comparator `(a, b) => b.createdAt.getTime() - a.createdAt.getTime()` of
`getRecentEmbeddings`. -/
def byRecent (a b : EmbeddingOut) : Prop := b.createdAt ≤ a.createdAt

instance : DecidableRel byRecent := fun a b => inferInstanceAs (Decidable (b.createdAt ≤ a.createdAt))

instance : IsTotal EmbeddingOut byRecent := ⟨fun a b => le_total b.createdAt a.createdAt⟩

instance : IsTrans EmbeddingOut byRecent := ⟨fun _ _ _ h h' => le_trans h' h⟩

/-- `EmbeddingService.getRecentEmbeddings(limit)`: reads every row, maps
through the `|| null` conversion, sorts by `createdAt` descending
(JavaScript `sort` is stable) and takes the first `limit`. -/
def getRecentEmbeddings (tbl : List Row) (limit : Nat) : List EmbeddingOut :=
  (List.insertionSort byRecent (tbl.map rowToEmbedding)).take limit

/-- `EmbeddingService.getEmbeddingById(id)`: filters the table on the id
column and returns the first hit (or `null`). -/
def getEmbeddingById (tbl : List Row) (vid : String) : Option EmbeddingOut :=
  match tbl.filter (fun r => r.id == vid) with
  | [] => none
  | r :: _ => some (rowToEmbedding r)

/-- One swap of the in-place Fisher–Yates loop,
`[shuffled[i], shuffled[j]] = [shuffled[j], shuffled[i]]`, modelled on
lists; indices produced by the loop are always in range, and an
out-of-range pair leaves the list unchanged. -/
def listSwap {α : Type} (l : List α) (i j : Nat) : List α :=
  if h : i < l.length ∧ j < l.length then
    (l.set i (l.get ⟨j, h.2⟩)).set j (l.get ⟨i, h.1⟩)
  else l

/-- The Fisher–Yates loop `for (let i = n - 1; i > 0; i--)` of
`getRandomEmbeddings`: at index `i` it swaps positions `i` and `js i`,
where `js i` models `Math.floor(Math.random() * (i + 1))` (always in
`[0, i]`). -/
def fyLoop {α : Type} (js : Nat → Nat) : List α → Nat → List α
  | l, 0 => l
  | l, i + 1 => fyLoop js (listSwap l (i + 1) (js (i + 1))) i

/-- The whole shuffle of `getRandomEmbeddings`: the loop started at
`n - 1`. -/
def fyShuffle {α : Type} (l : List α) (js : Nat → Nat) : List α :=
  fyLoop js l (l.length - 1)

/-- `EmbeddingService.getRandomEmbeddings(limit)`: reads the full record
set, shuffles it with Fisher–Yates driven by the random draws `js`, takes
the first `limit` rows and maps them through the `|| null` conversion. -/
def getRandomEmbeddings (tbl : List Row) (js : Nat → Nat) (limit : Nat) :
    List EmbeddingOut :=
  ((fyShuffle tbl js).take limit).map rowToEmbedding

/-- The `create`/`search` input shape: three optional fields. -/
structure CreateInput where
  text : Option String
  imageUrl : Option String
  videoUrl : Option String
  deriving DecidableEq, Repr

/-- The stored record built by `createEmbedding`: a fresh uuid `newId`,
the inference service's vector `emb`, the three optional fields stored
through `|| ""`, and the timestamp `now` (`Date.now()`). -/
def createRecord (input : CreateInput) (newId : String) (emb : List ℚ)
    (now : Int) : Row :=
  { id := newId, embedding := emb, text := orEmpty input.text,
    imageUrl := orEmpty input.imageUrl, videoUrl := orEmpty input.videoUrl,
    createdAt := now }

/-- `EmbeddingService.createEmbedding(input)`: calls the remote inference
endpoint (its outcome is the `inference` argument: embedding vector and
dimension), appends the new record to the table, and returns the new id
with the dimension; an inference failure propagates as an error. -/
def createEmbedding (tbl : List Row) (input : CreateInput)
    (inference : Except String (List ℚ × Nat)) (newId : String) (now : Int) :
    Except String (List Row × String × Nat) :=
  match inference with
  | .error e => .error e
  | .ok (emb, dim) => .ok (tbl ++ [createRecord input newId emb now], newId, dim)

/-- JavaScript `String.prototype.trim()`: strip leading and trailing
whitespace.  Written over the character list so that it evaluates by
kernel reduction. -/
def jsTrim (s : String) : String :=
  String.mk (((s.data.dropWhile Char.isWhitespace).reverse.dropWhile Char.isWhitespace).reverse)

/-- `data.text && data.text.trim().length > 0` of the
`createEmbeddingSchema` refinement: the field is present with non-blank
content. -/
def hasValue (o : Option String) : Bool :=
  match o with
  | none => false
  | some s => !(jsTrim s == "")

/-- The zod shape `z.url().optional().or(z.literal(''))` of the url
fields: absent, empty, or a valid url under the (external) url predicate
`urlOk`. -/
def urlFieldOk (urlOk : String → Bool) (o : Option String) : Bool :=
  match o with
  | none => true
  | some s => s == "" || urlOk s

/-- The whole `createEmbeddingSchema` check: both url fields well-formed
and the refinement "at least one input (text, imageUrl, or videoUrl) is
required". -/
def createInputValid (urlOk : String → Bool) (i : CreateInput) : Bool :=
  urlFieldOk urlOk i.imageUrl && urlFieldOk urlOk i.videoUrl &&
    (hasValue i.text || hasValue i.imageUrl || hasValue i.videoUrl)

/-- Error taxonomy at the rpc boundary: a zod input rejection surfaces as
a client error (the spec's `InvalidArgument`), everything thrown inside a
procedure is wrapped as an internal error carrying the message of the
underlying exception. -/
inductive RpcError where
  | invalidArgument : RpcError
  | internalError : String → RpcError
  | notFound : String → RpcError
  deriving DecidableEq, Repr

/-- The `{success, id, dimension}` output of the `create` procedure. -/
structure CreateOutput where
  success : Bool
  id : String
  dimension : Nat
  deriving DecidableEq, Repr

/-- The `embedding.create` procedure: zod-validate the input, call
`createEmbedding`, return `{success: true, id, dimension}`; a rejected
input never reaches the service. -/
def createRoute (urlOk : String → Bool) (tbl : List Row) (input : CreateInput)
    (inference : Except String (List ℚ × Nat)) (newId : String) (now : Int) :
    Except RpcError (List Row × CreateOutput) :=
  if createInputValid urlOk input then
    match createEmbedding tbl input inference newId now with
    | .error e => .error (.internalError e)
    | .ok (tbl2, rid, dim) => .ok (tbl2, ⟨true, rid, dim⟩)
  else .error .invalidArgument

/-- A request to `embedding.list` as the administration page sends it:
`{limit, offset}`.  The procedure's zod input schema declares only
`limit` (min 1, max 100, default 50); unknown keys such as `offset` are
stripped by zod's non-strict object parsing. -/
structure ListRequest where
  limit : Option Nat
  offset : Option Nat
  deriving DecidableEq, Repr

/-- The `embedding.list` procedure: parse the input (default limit 50,
bounds 1..100, `offset` stripped) and return the recent listing.  Its
output is `{embeddings}` only — there is no `total` field. -/
def listRoute (tbl : List Row) (req : ListRequest) :
    Except RpcError (List EmbeddingOut) :=
  let lim := req.limit.getD 50
  if 1 ≤ lim ∧ lim ≤ 100 then .ok (getRecentEmbeddings tbl lim)
  else .error .invalidArgument

/-- Unwrap a listing outcome to the page it carries (empty on error). -/
def pageOrEmpty (r : Except RpcError (List EmbeddingOut)) : List EmbeddingOut :=
  match r with
  | .error _ => []
  | .ok l => l

/-- Modelled from the spec: the `embedding.delete(id) → {success}`
endpoint is not present under src (only the administration page invokes
it); per the spec it "removes the record; is idempotent — deleting a
non-existent id is not an error".  Modelled as filtering the record out
of the table and reporting success. -/
def deleteRoute (tbl : List Row) (vid : String) : List Row × Bool :=
  (tbl.filter (fun r => r.id != vid), true)

/-- One item of the search page's result list as the orchestrator sees
it: the `VideoSearch` component reads only `id` (for de-duplication) and
`distance` (for ordering) of each result row; the remaining media fields
are payload it passes through untouched. -/
structure DisplayItem where
  id : String
  distance : ℚ
  deriving DecidableEq, Repr

/-- Ordering of display items by the sort comparator
`(a, b) => (a.distance || 0) - (b.distance || 0)` of the search-page
merge; `x || 0` maps only the number 0 to itself, so the key is just
`distance`. -/
def byDistance (a b : DisplayItem) : Prop := a.distance ≤ b.distance

instance : DecidableRel byDistance := fun a b => inferInstanceAs (Decidable (a.distance ≤ b.distance))

instance : IsTotal DisplayItem byDistance := ⟨fun a b => le_total a.distance b.distance⟩

instance : IsTrans DisplayItem byDistance := ⟨fun _ _ _ h h' => le_trans h h'⟩

/-- A result list sorted by non-decreasing distance. -/
def sortedByDistance (l : List DisplayItem) : Prop := l.Sorted byDistance

instance (l : List DisplayItem) : Decidable (sortedByDistance l) :=
  inferInstanceAs (Decidable (l.Pairwise byDistance))

/-- The id set of a response, as built by
`data.results.forEach(v => loadedVideoIds.current.add(v.id))`. -/
def idsOf (resp : List DisplayItem) : Finset String := (resp.map (·.id)).toFinset

/-- The `filter(v => !loadedVideoIds.current.has(v.id))` step shared by
both "load more" handlers. -/
def freshVideos (loaded : Finset String) (resp : List DisplayItem) : List DisplayItem :=
  resp.filter (fun v => decide (v.id ∉ loaded))

/-- The merge of the search "load more" handler:
`const combined = [...prev, ...newVideos]` followed by the stable sort
`combined.sort((a, b) => (a.distance || 0) - (b.distance || 0))`.
JavaScript `Array.prototype.sort` is stable, and a stable sort's output
is uniquely determined, so any stable sort (here insertion sort) models
it exactly. -/
def mergeSearchPage (prev newVideos : List DisplayItem) : List DisplayItem :=
  List.insertionSort byDistance (prev ++ newVideos)

/-- The four mutation hooks of the `VideoSearch` component that can have
requests in flight. -/
inductive ReqKind where
  | initialRandom : ReqKind
  | loadMoreRandom : ReqKind
  | searchInitial : ReqKind
  | searchMore : ReqKind
  deriving DecidableEq, Repr

/-- An outstanding remote request: which hook issued it and the query
parameters (text, uploaded video url) that were current at issue time.
The handlers never read these parameters back — that is the point of
claim C1. -/
structure Request where
  kind : ReqKind
  query : String
  videoUrl : Option String
  deriving DecidableEq, Repr

/-- The `VideoSearch` component's state: the `useState`/`useRef` cells,
the list of in-flight requests, and the toast messages surfaced so far. -/
structure OrchState where
  searchQuery : String
  uploadedVideoUrl : Option String
  searchResults : List DisplayItem
  loadedVideoIds : Finset String
  hasMore : Bool
  isInSearchMode : Bool
  isSearching : Bool
  isInitialLoading : Bool
  isLoadingMore : Bool
  prevQuery : String
  prevVideoUrl : Option String
  pending : List Request
  toasts : List String
  deriving DecidableEq

/-- The component's state just after mount: the mount effect has already
issued the first `getRandom` request. -/
def initState : OrchState :=
  { searchQuery := "", uploadedVideoUrl := none, searchResults := [],
    loadedVideoIds := ∅, hasMore := true, isInSearchMode := false,
    isSearching := false, isInitialLoading := true, isLoadingMore := false,
    prevQuery := "", prevVideoUrl := none,
    pending := [⟨.initialRandom, "", none⟩], toasts := [] }

/-- External events driving the component: the user edits the query or
the uploaded video changes (each `editQuery`/`setVideoUrl` event models
the input change together with the debounce effect reaching quiescence),
the user scrolls past the 80% mark, or an in-flight request `i` resolves
(successfully with a response list, or with an error message). -/
inductive Event where
  | editQuery : String → Event
  | setVideoUrl : Option String → Event
  | scroll : Event
  | respondOk : Nat → List DisplayItem → Event
  | respondErr : Nat → String → Event
  deriving DecidableEq, Repr

/-- The debounced search effect (the `useEffect` on
`[searchQuery, uploadedVideoUrl]`): an empty query re-enters browse mode
and requests a fresh random sample; an unchanged (query, video) pair is
suppressed; otherwise the previous-search ref is updated and a search
request is issued with the parameters current at issue time. -/
def queryEffect (s : OrchState) : OrchState :=
  if jsTrim s.searchQuery = "" ∧ s.uploadedVideoUrl = none then
    { s with isInSearchMode := false, hasMore := true,
             pending := s.pending ++ [⟨.initialRandom, "", none⟩] }
  else if s.prevQuery = s.searchQuery ∧ s.prevVideoUrl = s.uploadedVideoUrl then s
  else
    { s with prevQuery := s.searchQuery, prevVideoUrl := s.uploadedVideoUrl,
             isSearching := true,
             pending := s.pending ++ [⟨.searchInitial, s.searchQuery, s.uploadedVideoUrl⟩] }

/-- The `handleScroll` callback: guarded by the four loading flags; in
search mode (with a non-empty query) it issues a search-load-more request,
otherwise a random-load-more request. -/
def scrollStep (s : OrchState) : OrchState :=
  if s.isLoadingMore ∨ ¬s.hasMore ∨ s.isSearching ∨ s.isInitialLoading then s
  else if s.isInSearchMode ∧ (jsTrim s.searchQuery ≠ "" ∨ s.uploadedVideoUrl ≠ none) then
    { s with isLoadingMore := true,
             pending := s.pending ++ [⟨.searchMore, s.searchQuery, s.uploadedVideoUrl⟩] }
  else
    { s with isLoadingMore := true, pending := s.pending ++ [⟨.loadMoreRandom, "", none⟩] }

/-- The four `onSuccess` handlers.  `initialRandom` clears and rebuilds
the id set and replaces the list; `loadMoreRandom` filters out seen ids
and appends (marking pagination exhausted on an empty addition);
`searchInitial` clears and rebuilds the id set, replaces the list, enters
search mode and disables further paging; `searchMore` filters, merges and
re-sorts by distance.  None of them consults the originating request's
query parameters. -/
def handleOk (s : OrchState) (k : ReqKind) (resp : List DisplayItem) : OrchState :=
  match k with
  | .initialRandom =>
      { s with loadedVideoIds := idsOf resp, searchResults := resp,
               isInitialLoading := false }
  | .loadMoreRandom =>
      let newVideos := freshVideos s.loadedVideoIds resp
      if newVideos = [] then { s with hasMore := false, isLoadingMore := false }
      else
        { s with loadedVideoIds := s.loadedVideoIds ∪ idsOf newVideos,
                 searchResults := s.searchResults ++ newVideos,
                 isLoadingMore := false }
  | .searchInitial =>
      { s with loadedVideoIds := idsOf resp, searchResults := resp,
               isSearching := false, isInSearchMode := true, hasMore := false }
  | .searchMore =>
      let newVideos := freshVideos s.loadedVideoIds resp
      if newVideos = [] then { s with hasMore := false, isLoadingMore := false }
      else
        { s with loadedVideoIds := s.loadedVideoIds ∪ idsOf newVideos,
                 searchResults := mergeSearchPage s.searchResults newVideos,
                 isLoadingMore := false }

/-- The four `onError` handlers: the initial loaders surface a toast
(`searchInitial` includes the raw `error.message`), the two load-more
handlers only log to the console; none of them touches the result list or
the id set. -/
def handleErr (s : OrchState) (k : ReqKind) (msg : String) : OrchState :=
  match k with
  | .initialRandom =>
      { s with toasts := s.toasts ++ ["Failed to load videos"],
               isInitialLoading := false }
  | .loadMoreRandom => { s with isLoadingMore := false }
  | .searchInitial =>
      { s with toasts := s.toasts ++ ["Search failed: " ++ msg],
               isSearching := false }
  | .searchMore => { s with isLoadingMore := false }

/-- One step of the component: apply the event to the state.  A response
event consumes the in-flight request at position `i` and dispatches on
the hook that issued it; responses to unknown indices are ignored. -/
def step (s : OrchState) (e : Event) : OrchState :=
  match e with
  | .editQuery q => queryEffect { s with searchQuery := q }
  | .setVideoUrl u => queryEffect { s with uploadedVideoUrl := u }
  | .scroll => scrollStep s
  | .respondOk i resp =>
      match s.pending[i]? with
      | none => s
      | some req => handleOk { s with pending := s.pending.eraseIdx i } req.kind resp
  | .respondErr i msg =>
      match s.pending[i]? with
      | none => s
      | some req => handleErr { s with pending := s.pending.eraseIdx i } req.kind msg

/-- Run the component from mount through a sequence of events. -/
def run (es : List Event) : OrchState := es.foldl step initState

/-! ### Helper lemmas -/

theorem emptyToNull_orEmpty_eq_none (o : Option String) :
    emptyToNull (orEmpty o) = none ↔ (o = none ∨ o = some "") := by
  cases o with
  | none => simp [orEmpty, emptyToNull]
  | some s =>
    by_cases h : s = "" <;> simp [orEmpty, emptyToNull, h]

theorem emptyToNull_orEmpty_eq_some (s : String) (h : s ≠ "") :
    emptyToNull (orEmpty (some s)) = some s := by
  simp [orEmpty, emptyToNull, h]

/-! ### C10 — empty-string/null round trip at the public interface -/

/-- C10: a record created with some subset of {text, imageUrl, videoUrl}
non-empty reads back (through the read paths' shared `|| null` mapping,
and through `getEmbeddingById`) with exactly the complementary fields
null and the non-empty values unchanged; absent or empty fields are
stored as the empty string and read back as null. -/
theorem optionalField_roundTrip (input : CreateInput) (newId : String)
    (emb : List ℚ) (now : Int) (d : ℚ) :
    ((rowToEmbedding (createRecord input newId emb now)).text = none ↔
      (input.text = none ∨ input.text = some "")) ∧
    ((rowToEmbedding (createRecord input newId emb now)).imageUrl = none ↔
      (input.imageUrl = none ∨ input.imageUrl = some "")) ∧
    ((rowToEmbedding (createRecord input newId emb now)).videoUrl = none ↔
      (input.videoUrl = none ∨ input.videoUrl = some "")) ∧
    (∀ s, input.text = some s → s ≠ "" →
      (rowToEmbedding (createRecord input newId emb now)).text = some s) ∧
    (∀ s, input.imageUrl = some s → s ≠ "" →
      (rowToEmbedding (createRecord input newId emb now)).imageUrl = some s) ∧
    (∀ s, input.videoUrl = some s → s ≠ "" →
      (rowToEmbedding (createRecord input newId emb now)).videoUrl = some s) ∧
    ((rowToSearchResult (createRecord input newId emb now) d).text =
        (rowToEmbedding (createRecord input newId emb now)).text ∧
      (rowToSearchResult (createRecord input newId emb now) d).imageUrl =
        (rowToEmbedding (createRecord input newId emb now)).imageUrl ∧
      (rowToSearchResult (createRecord input newId emb now) d).videoUrl =
        (rowToEmbedding (createRecord input newId emb now)).videoUrl) ∧
    getEmbeddingById [createRecord input newId emb now] newId =
      some (rowToEmbedding (createRecord input newId emb now)) := by
  refine ⟨emptyToNull_orEmpty_eq_none _, emptyToNull_orEmpty_eq_none _,
    emptyToNull_orEmpty_eq_none _, ?_, ?_, ?_, ⟨rfl, rfl, rfl⟩, ?_⟩
  · intro s hs hne
    simpa [rowToEmbedding, createRecord, hs] using emptyToNull_orEmpty_eq_some s hne
  · intro s hs hne
    simpa [rowToEmbedding, createRecord, hs] using emptyToNull_orEmpty_eq_some s hne
  · intro s hs hne
    simpa [rowToEmbedding, createRecord, hs] using emptyToNull_orEmpty_eq_some s hne
  · simp [getEmbeddingById, createRecord, List.filter]

/-- C10 witness: a record created with text `"hello"` and video
`"v.mp4"` but no image reads back as exactly that. -/
theorem optionalField_roundTrip_witness :
    (rowToEmbedding (createRecord ⟨some "hello", none, some "v.mp4"⟩ "id-1" [1] 7)).text =
      some "hello" ∧
    (rowToEmbedding (createRecord ⟨some "hello", none, some "v.mp4"⟩ "id-1" [1] 7)).imageUrl =
      none ∧
    (rowToEmbedding (createRecord ⟨some "hello", none, some "v.mp4"⟩ "id-1" [1] 7)).videoUrl =
      some "v.mp4" :=
  ⟨(optionalField_roundTrip ⟨some "hello", none, some "v.mp4"⟩ "id-1" [1] 7 0).2.2.2.1
      "hello" rfl (by decide),
   (optionalField_roundTrip ⟨some "hello", none, some "v.mp4"⟩ "id-1" [1] 7 0).2.1.mpr
      (Or.inl rfl),
   (optionalField_roundTrip ⟨some "hello", none, some "v.mp4"⟩ "id-1" [1] 7 0).2.2.2.2.2.1
      "v.mp4" rfl (by decide)⟩

/-! ### C8 — create validation -/

/-- C8: with at least one of the three fields non-blank (and the url
fields well-formed), `create` succeeds and returns the new id and the
inference dimension; with all three blank it is rejected as an invalid
argument before any remote call, whatever the inference outcome. -/
theorem create_requires_nonEmpty_input (urlOk : String → Bool) (tbl : List Row)
    (input : CreateInput) (emb : List ℚ) (dim : Nat) (newId : String) (now : Int) :
    ((hasValue input.text ∨ hasValue input.imageUrl ∨ hasValue input.videoUrl) →
      urlFieldOk urlOk input.imageUrl = true → urlFieldOk urlOk input.videoUrl = true →
      createRoute urlOk tbl input (.ok (emb, dim)) newId now =
        .ok (tbl ++ [createRecord input newId emb now], ⟨true, newId, dim⟩)) ∧
    (hasValue input.text = false → hasValue input.imageUrl = false →
      hasValue input.videoUrl = false →
      ∀ inference, createRoute urlOk tbl input inference newId now =
        .error .invalidArgument) := by
  constructor
  · intro h hi hv
    have hval : createInputValid urlOk input = true := by
      rcases h with h | h | h <;> simp [createInputValid, hi, hv, h]
    simp [createRoute, hval, createEmbedding]
  · intro ht hi hv inference
    have hval : createInputValid urlOk input = false := by
      simp [createInputValid, ht, hi, hv]
    simp [createRoute, hval]

/-- C8 witness: a text-only input is accepted (and appends the new
record); an input whose three fields are absent, empty and blank is
rejected as an invalid argument. -/
theorem create_requires_nonEmpty_input_witness :
    createRoute (fun _ => true) [] ⟨some "hello", none, none⟩ (.ok ([1], 1536)) "id-1" 0 =
      .ok ([createRecord ⟨some "hello", none, none⟩ "id-1" [1] 0], ⟨true, "id-1", 1536⟩) ∧
    createRoute (fun _ => true) [] ⟨none, some "", some " "⟩ (.ok ([1], 1536)) "id-1" 0 =
      .error .invalidArgument :=
  ⟨(create_requires_nonEmpty_input (fun _ => true) [] ⟨some "hello", none, none⟩
      [1] 1536 "id-1" 0).1 (Or.inl (by decide)) (by decide) (by decide),
   (create_requires_nonEmpty_input (fun _ => true) [] ⟨none, some "", some " "⟩
      [1] 1536 "id-1" 0).2 (by decide) (by decide) (by decide) _⟩

/-! ### C5 — delete (spec-modelled endpoint) -/

/-- C5: `delete` reports success on every input (so deleting a
non-existent id is not an error), removes every record with the given
id, is idempotent, and after a delete the id is absent from every page
of the recent listing. -/
theorem delete_removes_idempotent_absent (tbl : List Row) (vid : String) (limit : Nat) :
    (deleteRoute tbl vid).2 = true ∧
    (∀ r ∈ (deleteRoute tbl vid).1, r.id ≠ vid) ∧
    deleteRoute (deleteRoute tbl vid).1 vid = deleteRoute tbl vid ∧
    (∀ e ∈ getRecentEmbeddings (deleteRoute tbl vid).1 limit, e.id ≠ vid) := by
  refine ⟨rfl, ?_, ?_, ?_⟩
  · intro r hr
    have := List.of_mem_filter hr
    simpa using this
  · simp [deleteRoute, List.filter_filter]
  · intro e he
    have hsub : e ∈ List.insertionSort byRecent ((deleteRoute tbl vid).1.map rowToEmbedding) :=
      List.take_subset _ _ he
    have hmem : e ∈ (deleteRoute tbl vid).1.map rowToEmbedding :=
      (List.perm_insertionSort byRecent _).subset hsub
    obtain ⟨r, hr, hre⟩ := List.mem_map.mp hmem
    have : r.id ≠ vid := by simpa using List.of_mem_filter hr
    rw [← hre]
    exact this

/-! ### C4 — nearestNeighbors: ordering and limit hold, threshold does not -/

/-- C4 amended: for every query vector, limit and metric the search
pipeline returns at most `limit` results, ordered by ascending distance,
each scored from a table row under the selected metric — but the
`distanceThreshold` argument has no effect on the result at all. -/
theorem searchEmbeddings_sorted_limited_threshold_ignored
    (tbl : List Row) (dist : List ℚ → List ℚ → ℚ) (q : List ℚ) (limit : Nat)
    (thr : Option ℚ) :
    searchPipeline tbl dist q limit thr = searchPipeline tbl dist q limit none ∧
    (searchPipeline tbl dist q limit thr).length ≤ limit ∧
    ((searchPipeline tbl dist q limit thr).map (·.distance)).Sorted (· ≤ ·) ∧
    ∀ res ∈ searchPipeline tbl dist q limit thr,
      ∃ r ∈ tbl, res = rowToSearchResult r (dist q r.embedding) := by
  refine ⟨rfl, ?_, ?_, ?_⟩
  · simp only [searchPipeline, searchEmbeddings, lancedbSearch, List.length_map]
    exact le_trans (List.length_take_le _ _) le_rfl
  · have hs : (List.insertionSort byScore
        (tbl.map (fun r => (r, dist q r.embedding)))).Sorted byScore :=
      List.sorted_insertionSort byScore _
    have ht : ((List.insertionSort byScore
        (tbl.map (fun r => (r, dist q r.embedding)))).take limit).Sorted byScore :=
      hs.sublist (List.take_sublist _ _)
    simp only [searchPipeline, searchEmbeddings, lancedbSearch, List.map_map]
    exact ht.map _ (fun a b h => h)
  · intro res hres
    simp only [searchPipeline, searchEmbeddings, lancedbSearch] at hres
    obtain ⟨p, hp, hpe⟩ := List.mem_map.mp hres
    have hp2 : p ∈ List.insertionSort byScore
        (tbl.map (fun r => (r, dist q r.embedding))) := List.take_subset _ _ hp
    have hp3 : p ∈ tbl.map (fun r => (r, dist q r.embedding)) :=
      (List.perm_insertionSort byScore _).subset hp2
    obtain ⟨r, hr, hrp⟩ := List.mem_map.mp hp3
    exact ⟨r, hr, by rw [← hpe, ← hrp]⟩

/-- The concrete row used to exhibit the ignored distance threshold. -/
def thresholdRow : Row := ⟨"v-1", [0], "", "", "v.mp4", 0⟩

/-- C4 counterexample: against a table holding one row at squared-L2
distance 4 from the query, a search with `distanceThreshold = 1` still
returns that row — results with distance greater than the supplied
threshold are not excluded. -/
theorem distanceThreshold_not_applied :
    searchPipeline [thresholdRow] distL2 [2] 10 (some 1) =
      [rowToSearchResult thresholdRow 4] ∧
    (rowToSearchResult thresholdRow 4).distance = 4 ∧ ¬ ((4 : ℚ) ≤ 1) := by
  refine ⟨?_, rfl, by norm_num⟩
  have h4 : distL2 [2] thresholdRow.embedding = 4 := by
    simp [distL2, thresholdRow]
    norm_num
  simp [searchPipeline, searchEmbeddings, lancedbSearch, List.insertionSort,
    List.orderedInsert, h4]

open List

/-! ### C3 — merge/sort contract of Search mode -/

/-- C3 amended: the search load-more merge filters out already-loaded
ids and re-sorts the union by ascending distance with a stable sort
(ties keep the order of `[...prev, ...newVideos]`, i.e. previous results
before the new response, each in original response order); but the
"every displayed Search-mode result set is sorted" reading fails — see
the counterexample with a stale browse response. -/
theorem mergeSearchPage_sorted_stable (loaded : Finset String)
    (prev resp : List DisplayItem) :
    sortedByDistance (mergeSearchPage prev (freshVideos loaded resp)) ∧
    mergeSearchPage prev (freshVideos loaded resp) ~ prev ++ freshVideos loaded resp ∧
    (∀ a b : DisplayItem, [a, b] <+ prev ++ freshVideos loaded resp →
      a.distance = b.distance →
      [a, b] <+ mergeSearchPage prev (freshVideos loaded resp)) ∧
    (∀ v ∈ freshVideos loaded resp, v.id ∉ loaded) := by
  refine ⟨List.sorted_insertionSort byDistance _, List.perm_insertionSort byDistance _,
    ?_, ?_⟩
  · intro a b hsub heq
    exact List.pair_sublist_insertionSort (le_of_eq heq) hsub
  · intro v hv
    have := List.of_mem_filter hv
    simpa using this

/-- C3 amended witness: merging the one-element page `[b@1]` into the
previous list `[a@1]` keeps the tied pair in previous-then-new order
inside a sorted result. -/
theorem mergeSearchPage_sorted_stable_witness :
    sortedByDistance (mergeSearchPage [⟨"a", 1⟩] (freshVideos ∅ [⟨"b", 1⟩])) ∧
    [(⟨"a", 1⟩ : DisplayItem), ⟨"b", 1⟩] <+
      mergeSearchPage [⟨"a", 1⟩] (freshVideos ∅ [⟨"b", 1⟩]) :=
  ⟨(mergeSearchPage_sorted_stable ∅ [⟨"a", 1⟩] [⟨"b", 1⟩]).1,
   (mergeSearchPage_sorted_stable ∅ [⟨"a", 1⟩] [⟨"b", 1⟩]).2.2.1 _ _ (by decide) rfl⟩

/-- C3 counterexample: a browse-mode load-more request left in flight
when the user starts a search is appended on arrival (its handler checks
no mode): after random response `r-1`, a scroll, the search `cat` whose
response is `[s-1@2]`, and the stale random response `[r-2@0]`, the
session is in search mode yet displays `[s-1@2, r-2@0]`, which is not
ordered by non-decreasing distance. -/
theorem staleBrowseResponse_breaks_search_ordering :
    (run [.respondOk 0 [⟨"r-1", 0⟩], .scroll, .editQuery "cat",
          .respondOk 1 [⟨"s-1", 2⟩], .respondOk 0 [⟨"r-2", 0⟩]]).isInSearchMode = true ∧
    (run [.respondOk 0 [⟨"r-1", 0⟩], .scroll, .editQuery "cat",
          .respondOk 1 [⟨"s-1", 2⟩], .respondOk 0 [⟨"r-2", 0⟩]]).searchResults =
      [⟨"s-1", 2⟩, ⟨"r-2", 0⟩] ∧
    ¬ sortedByDistance [⟨"s-1", 2⟩, ⟨"r-2", 0⟩] := by decide

/-! ### C2 — de-duplication set invariant -/

/-- The success responses carried by an event have pairwise-distinct ids
(a nearest-neighbor or random-sample response from a store with unique
ids never repeats an id inside one response). -/
def eventNodup (e : Event) : Bool :=
  match e with
  | .respondOk _ resp => decide ((resp.map (·.id)).Nodup)
  | _ => true

/-- The claimed invariant: the visible result list repeats no id, and
the de-duplication set holds exactly the visible ids. -/
def IdInvariant (s : OrchState) : Prop :=
  (s.searchResults.map (·.id)).Nodup ∧
    s.loadedVideoIds = (s.searchResults.map (·.id)).toFinset

theorem queryEffect_fields (s : OrchState) :
    (queryEffect s).searchResults = s.searchResults ∧
    (queryEffect s).loadedVideoIds = s.loadedVideoIds := by
  unfold queryEffect
  split
  · exact ⟨rfl, rfl⟩
  · split
    · exact ⟨rfl, rfl⟩
    · exact ⟨rfl, rfl⟩

theorem scrollStep_fields (s : OrchState) :
    (scrollStep s).searchResults = s.searchResults ∧
    (scrollStep s).loadedVideoIds = s.loadedVideoIds := by
  unfold scrollStep
  split
  · exact ⟨rfl, rfl⟩
  · split
    · exact ⟨rfl, rfl⟩
    · exact ⟨rfl, rfl⟩

theorem handleErr_fields (s : OrchState) (k : ReqKind) (msg : String) :
    (handleErr s k msg).searchResults = s.searchResults ∧
    (handleErr s k msg).loadedVideoIds = s.loadedVideoIds := by
  cases k <;> exact ⟨rfl, rfl⟩

theorem freshVideos_nodup (loaded : Finset String) (resp : List DisplayItem)
    (h : (resp.map (·.id)).Nodup) :
    ((freshVideos loaded resp).map (·.id)).Nodup :=
  h.sublist ((List.filter_sublist resp).map _)

theorem freshVideos_not_loaded (loaded : Finset String) (resp : List DisplayItem)
    (v : DisplayItem) (hv : v ∈ freshVideos loaded resp) : v.id ∉ loaded := by
  have := List.of_mem_filter hv
  simpa using this

theorem handleOk_invariant (s : OrchState) (k : ReqKind) (resp : List DisplayItem)
    (hs : IdInvariant s) (hr : (resp.map (·.id)).Nodup) :
    IdInvariant (handleOk s k resp) := by
  obtain ⟨hnd, hset⟩ := hs
  cases k with
  | initialRandom => exact ⟨hr, rfl⟩
  | searchInitial => exact ⟨hr, rfl⟩
  | loadMoreRandom =>
    by_cases hempty : freshVideos s.loadedVideoIds resp = []
    · simpa [handleOk, hempty] using ⟨hnd, hset⟩
    · have hfn := freshVideos_nodup s.loadedVideoIds resp hr
      have hdisj : (s.searchResults.map (·.id)).Disjoint
          ((freshVideos s.loadedVideoIds resp).map (·.id)) := by
        intro a ha hb
        obtain ⟨v, hv, hva⟩ := List.mem_map.mp hb
        have : v.id ∉ s.loadedVideoIds := freshVideos_not_loaded _ _ _ hv
        rw [hva] at this
        exact this (hset ▸ List.mem_toFinset.mpr ha)
      refine ⟨?_, ?_⟩
      · simpa [handleOk, hempty] using hnd.append hfn hdisj
      · simp only [handleOk, hempty, if_false, idsOf]
        rw [hset]
        simp [List.toFinset_append]
  | searchMore =>
    by_cases hempty : freshVideos s.loadedVideoIds resp = []
    · simpa [handleOk, hempty] using ⟨hnd, hset⟩
    · have hfn := freshVideos_nodup s.loadedVideoIds resp hr
      have hdisj : (s.searchResults.map (·.id)).Disjoint
          ((freshVideos s.loadedVideoIds resp).map (·.id)) := by
        intro a ha hb
        obtain ⟨v, hv, hva⟩ := List.mem_map.mp hb
        have : v.id ∉ s.loadedVideoIds := freshVideos_not_loaded _ _ _ hv
        rw [hva] at this
        exact this (hset ▸ List.mem_toFinset.mpr ha)
      have hperm : mergeSearchPage s.searchResults (freshVideos s.loadedVideoIds resp) ~
          s.searchResults ++ freshVideos s.loadedVideoIds resp :=
        List.perm_insertionSort byDistance _
      have hpm : (mergeSearchPage s.searchResults
            (freshVideos s.loadedVideoIds resp)).map (·.id) ~
          (s.searchResults ++ freshVideos s.loadedVideoIds resp).map (·.id) :=
        hperm.map _
      refine ⟨?_, ?_⟩
      · simp only [handleOk, hempty, if_false]
        exact hpm.nodup_iff.mpr (by simpa using hnd.append hfn hdisj)
      · simp only [handleOk, hempty, if_false, idsOf]
        rw [List.toFinset_eq_of_perm _ _ hpm, hset]
        simp [List.toFinset_append]

theorem invariant_of_fields {s t : OrchState} (hs : IdInvariant s)
    (h1 : t.searchResults = s.searchResults)
    (h2 : t.loadedVideoIds = s.loadedVideoIds) : IdInvariant t := by
  constructor
  · rw [h1]; exact hs.1
  · rw [h1, h2]; exact hs.2

theorem step_invariant (s : OrchState) (e : Event)
    (hs : IdInvariant s) (he : eventNodup e = true) : IdInvariant (step s e) := by
  cases e with
  | editQuery q =>
    exact invariant_of_fields hs (queryEffect_fields { s with searchQuery := q }).1
      (queryEffect_fields { s with searchQuery := q }).2
  | setVideoUrl u =>
    exact invariant_of_fields hs (queryEffect_fields { s with uploadedVideoUrl := u }).1
      (queryEffect_fields { s with uploadedVideoUrl := u }).2
  | scroll =>
    exact invariant_of_fields hs (scrollStep_fields s).1 (scrollStep_fields s).2
  | respondOk i resp =>
    simp only [step]
    cases hp : s.pending[i]? with
    | none => exact hs
    | some req =>
      have hr : (resp.map (·.id)).Nodup := by
        simpa [eventNodup] using he
      exact handleOk_invariant _ req.kind resp hs hr
  | respondErr i msg =>
    simp only [step]
    cases hp : s.pending[i]? with
    | none => exact hs
    | some req =>
      exact invariant_of_fields hs
        (handleErr_fields { s with pending := s.pending.eraseIdx i } req.kind msg).1
        (handleErr_fields { s with pending := s.pending.eraseIdx i } req.kind msg).2

theorem foldl_invariant (es : List Event) :
    ∀ s : OrchState, IdInvariant s → (∀ e ∈ es, eventNodup e = true) →
      IdInvariant (es.foldl step s) := by
  induction es with
  | nil => intro s hs _; exact hs
  | cons e es ih =>
    intro s hs hall
    exact ih (step s e) (step_invariant s e hs (hall e (List.mem_cons_self e es)))
      (fun e' he' => hall e' (List.mem_cons_of_mem e he'))

/-- C2: along every event sequence whose responses carry
pairwise-distinct ids, the visible result list repeats no id and the
de-duplication set holds exactly the ids of the visible list; moreover
every initial-load or new-search success clears the set and rebuilds it
from its own response. -/
theorem dedup_set_matches_results (es : List Event)
    (h : ∀ e ∈ es, eventNodup e = true) :
    IdInvariant (run es) ∧
    (∀ (s : OrchState) (i : Nat) (req : Request) (resp : List DisplayItem),
      s.pending[i]? = some req →
      (req.kind = .searchInitial ∨ req.kind = .initialRandom) →
      (step s (.respondOk i resp)).loadedVideoIds = (resp.map (·.id)).toFinset) := by
  constructor
  · exact foldl_invariant es initState ⟨by decide, by decide⟩ h
  · intro s i req resp hp hk
    cases req with
    | mk k qq vv =>
      rcases hk with hk | hk <;> subst hk <;> simp [step, hp, handleOk, idsOf]

/-- C2 witness: after an initial load and one browse load-more (the
second response repeating an already-shown id), the invariant holds on
the reached state. -/
theorem dedup_set_matches_results_witness :
    IdInvariant (run [.respondOk 0 [⟨"r-1", 0⟩], .scroll,
      .respondOk 0 [⟨"r-1", 0⟩, ⟨"r-2", 0⟩]]) :=
  (dedup_set_matches_results
    [.respondOk 0 [⟨"r-1", 0⟩], .scroll, .respondOk 0 [⟨"r-1", 0⟩, ⟨"r-2", 0⟩]]
    (by decide)).1

/-! ### C1 — stale responses are not keyed to the active query -/

/-- C1 counterexample: the user searches `cat` (request in flight), then
types `dog` (second request); the `dog` response `[dog-1@2]` arrives
first, the stale `cat` response `[cat-1@1]` arrives second.  The active
query is still `dog`, yet the displayed list is exactly the stale
response — a row that appears in no `dog` response. -/
theorem stale_search_response_displayed :
    (run [.editQuery "cat", .editQuery "dog",
          .respondOk 2 [⟨"dog-1", 2⟩], .respondOk 1 [⟨"cat-1", 1⟩]]).searchQuery = "dog" ∧
    (run [.editQuery "cat", .editQuery "dog",
          .respondOk 2 [⟨"dog-1", 2⟩], .respondOk 1 [⟨"cat-1", 1⟩]]).isInSearchMode = true ∧
    (run [.editQuery "cat", .editQuery "dog",
          .respondOk 2 [⟨"dog-1", 2⟩], .respondOk 1 [⟨"cat-1", 1⟩]]).searchResults =
      [⟨"cat-1", 1⟩] ∧
    (⟨"cat-1", (1 : ℚ)⟩ : DisplayItem).id ≠ (⟨"dog-1", (2 : ℚ)⟩ : DisplayItem).id := by
  decide

/-- C1 amended: the orchestrator keys no outstanding request against the
query active at issue time — a search success handler applies its
response in full on arrival (replacing the list and rebuilding the id
set) regardless of whether the originating request's parameters still
match the current query, which stays untouched; the last response to
arrive wins. -/
theorem searchResponse_applied_regardless_of_query (s : OrchState) (i : Nat)
    (req : Request) (resp : List DisplayItem)
    (hp : s.pending[i]? = some req) (hk : req.kind = .searchInitial) :
    (step s (.respondOk i resp)).searchResults = resp ∧
    (step s (.respondOk i resp)).loadedVideoIds = (resp.map (·.id)).toFinset ∧
    (step s (.respondOk i resp)).searchQuery = s.searchQuery := by
  cases req with
  | mk k qq vv =>
    subst hk
    simp [step, hp, handleOk, idsOf]

/-- C1 amended witness: in a session whose pending queue holds the
initial-load request and a search request for `cat`, typing has moved on
to `dog`; the `cat` response is applied wholesale on arrival. -/
theorem searchResponse_applied_regardless_of_query_witness :
    (step (run [.editQuery "cat", .editQuery "dog"])
        (.respondOk 1 [⟨"cat-1", 1⟩])).searchResults = [⟨"cat-1", 1⟩] ∧
    (step (run [.editQuery "cat", .editQuery "dog"])
        (.respondOk 1 [⟨"cat-1", 1⟩])).loadedVideoIds =
      ([(⟨"cat-1", 1⟩ : DisplayItem)].map (·.id)).toFinset ∧
    (step (run [.editQuery "cat", .editQuery "dog"])
        (.respondOk 1 [⟨"cat-1", 1⟩])).searchQuery =
      (run [.editQuery "cat", .editQuery "dog"]).searchQuery :=
  searchResponse_applied_regardless_of_query (run [.editQuery "cat", .editQuery "dog"]) 1
    ⟨.searchInitial, "cat", none⟩ [⟨"cat-1", 1⟩] (by decide) rfl

/-! ### C7 — failure handling -/

/-- C7 amended: an error outcome of any in-flight request leaves the
displayed list and the id set exactly as they were; the initial-search
error surfaces a toast that embeds the raw error message, while load-more
errors surface nothing at all. -/
theorem remote_error_leaves_results (s : OrchState) (i : Nat) (msg : String)
    (req : Request) (hp : s.pending[i]? = some req) :
    (step s (.respondErr i msg)).searchResults = s.searchResults ∧
    (step s (.respondErr i msg)).loadedVideoIds = s.loadedVideoIds ∧
    (req.kind = .searchInitial →
      (step s (.respondErr i msg)).toasts = s.toasts ++ ["Search failed: " ++ msg]) ∧
    ((req.kind = .loadMoreRandom ∨ req.kind = .searchMore) →
      (step s (.respondErr i msg)).toasts = s.toasts) := by
  cases req with
  | mk k qq vv =>
    cases k <;> simp [step, hp, handleErr]

/-- C7 amended witness: a failing search for `cat` leaves the browse
results on screen and toasts the raw message. -/
theorem remote_error_leaves_results_witness :
    (step (run [.respondOk 0 [⟨"r-1", 0⟩], .editQuery "cat"])
        (.respondErr 0 "boom")).searchResults =
      (run [.respondOk 0 [⟨"r-1", 0⟩], .editQuery "cat"]).searchResults ∧
    (step (run [.respondOk 0 [⟨"r-1", 0⟩], .editQuery "cat"])
        (.respondErr 0 "boom")).loadedVideoIds =
      (run [.respondOk 0 [⟨"r-1", 0⟩], .editQuery "cat"]).loadedVideoIds ∧
    (step (run [.respondOk 0 [⟨"r-1", 0⟩], .editQuery "cat"])
        (.respondErr 0 "boom")).toasts =
      (run [.respondOk 0 [⟨"r-1", 0⟩], .editQuery "cat"]).toasts ++
        ["Search failed: " ++ "boom"] :=
  ⟨(remote_error_leaves_results _ 0 "boom" ⟨.searchInitial, "cat", none⟩ (by decide)).1,
   (remote_error_leaves_results _ 0 "boom" ⟨.searchInitial, "cat", none⟩ (by decide)).2.1,
   (remote_error_leaves_results _ 0 "boom" ⟨.searchInitial, "cat", none⟩ (by decide)).2.2.1
     rfl⟩

/-- C7 counterexample: a vector-store failure inside `searchEmbeddings`
is caught and returned as an empty successful response; when that
"success" reaches the search handler it replaces the previously
displayed non-empty browse results with the empty list, and no toast is
surfaced — the failure clears visible data silently. -/
theorem store_failure_clears_displayed_results :
    searchEmbeddings (.error "connection refused") none = [] ∧
    (run [.respondOk 0 [⟨"r-1", 0⟩], .editQuery "cat"]).searchResults = [⟨"r-1", 0⟩] ∧
    (run [.respondOk 0 [⟨"r-1", 0⟩], .editQuery "cat", .respondOk 0 []]).searchResults =
      [] ∧
    (run [.respondOk 0 [⟨"r-1", 0⟩], .editQuery "cat", .respondOk 0 []]).toasts =
      (run [.respondOk 0 [⟨"r-1", 0⟩], .editQuery "cat"]).toasts := by
  decide

/-! ### C6 — the list endpoint has no offset and no total -/

/-- One row of the concrete 101-record table: id is the decimal numeral,
creation time the index. -/
def mkRow (i : Nat) : Row := ⟨toString i, [], "", "", "", (i : Int)⟩

/-- A concrete table of 101 records, one more than the maximum page
size. -/
def bigTable : List Row := (List.range 101).map mkRow

theorem strict_oldest_not_in_page (l : List EmbeddingOut) (limit : Nat)
    (e : EmbeddingOut) (hnodup : l.Nodup) (hlt : limit < l.length)
    (holder : ∀ y ∈ l, y ≠ e → e.createdAt < y.createdAt) :
    e ∉ (List.insertionSort byRecent l).take limit := by
  intro hmem
  have hperm : List.insertionSort byRecent l ~ l := List.perm_insertionSort _ _
  have hsort : (List.insertionSort byRecent l).Sorted byRecent :=
    List.sorted_insertionSort _ _
  have hlen : (List.insertionSort byRecent l).length = l.length := hperm.length_eq
  have hdroplen : ((List.insertionSort byRecent l).drop limit).length = l.length - limit := by
    rw [List.length_drop, hlen]
  have hdropne : (List.insertionSort byRecent l).drop limit ≠ [] := by
    intro h0
    have hz : l.length - limit = 0 := by rw [← hdroplen, h0]; rfl
    omega
  obtain ⟨y, hy⟩ := List.exists_mem_of_ne_nil _ hdropne
  have hsplit : (List.insertionSort byRecent l).take limit ++
      (List.insertionSort byRecent l).drop limit = List.insertionSort byRecent l :=
    List.take_append_drop _ _
  have hpw : List.Pairwise byRecent ((List.insertionSort byRecent l).take limit ++
      (List.insertionSort byRecent l).drop limit) := by
    rw [hsplit]; exact hsort
  have hrel : byRecent e y := (List.pairwise_append.mp hpw).2.2 e hmem y hy
  have hnd : (List.insertionSort byRecent l).Nodup := hperm.nodup_iff.mpr hnodup
  have hnd2 : ((List.insertionSort byRecent l).take limit ++
      (List.insertionSort byRecent l).drop limit).Nodup := by
    rw [hsplit]; exact hnd
  have hne : y ≠ e := by
    intro h
    exact (List.disjoint_of_nodup_append hnd2) hmem (h ▸ hy)
  have hymem : y ∈ l := hperm.subset (by
    rw [← hsplit]; exact List.mem_append_right _ hy)
  exact absurd hrel (not_le.mpr (holder y hymem hne))

theorem bigTable_map_nodup : (bigTable.map rowToEmbedding).Nodup := by
  rw [bigTable, List.map_map]
  refine (List.nodup_range 101).map ?_
  intro i j hij
  have h2 : ((i : Int)) = (j : Int) := by
    have h3 := congrArg EmbeddingOut.createdAt hij
    simpa [Function.comp_apply, rowToEmbedding, mkRow] using h3
  exact_mod_cast h2

/-- C6 counterexample: against 101 stored records, the administration
page's page-2 request `{limit: 100, offset: 100}` returns byte-for-byte
the same answer as the page-1 request (the input schema strips the
unknown `offset` key), the answer carries 100 records and no total, and
the oldest record appears on no page the endpoint can ever return. -/
theorem list_offset_stripped_first_page_only :
    listRoute bigTable ⟨some 100, some 100⟩ = listRoute bigTable ⟨some 100, some 0⟩ ∧
    bigTable.length = 101 ∧
    (pageOrEmpty (listRoute bigTable ⟨some 100, some 100⟩)).length = 100 ∧
    rowToEmbedding (mkRow 0) ∉ pageOrEmpty (listRoute bigTable ⟨some 100, some 100⟩) := by
  have hroute : listRoute bigTable ⟨some 100, some 100⟩ =
      .ok (getRecentEmbeddings bigTable 100) := by
    simp [listRoute]
  have hlen : bigTable.length = 101 := by simp [bigTable]
  refine ⟨rfl, hlen, ?_, ?_⟩
  · rw [hroute]
    simp only [pageOrEmpty, getRecentEmbeddings]
    rw [List.length_take, List.length_insertionSort, List.length_map, hlen]
    decide
  · rw [hroute]
    simp only [pageOrEmpty, getRecentEmbeddings]
    apply strict_oldest_not_in_page _ _ _ bigTable_map_nodup
    · rw [List.length_map, hlen]; omega
    · intro y hy hne
      rw [bigTable, List.map_map] at hy
      obtain ⟨k, hk, hke⟩ := List.mem_map.mp hy
      have hk0 : k ≠ 0 := by
        intro h
        apply hne
        rw [← hke, h]
        rfl
      rw [← hke]
      simp only [Function.comp_apply, rowToEmbedding, mkRow]
      omega

/-- C6 amended: `embedding.list` accepts only a limit (1..100, default
50) and returns the limit most-recent records with no total count; any
offset in the request is ignored, so the listing is insensitive to it. -/
theorem listRoute_limit_only (tbl : List Row) (req : ListRequest)
    (h1 : 1 ≤ req.limit.getD 50) (h2 : req.limit.getD 50 ≤ 100) :
    listRoute tbl req = .ok (getRecentEmbeddings tbl (req.limit.getD 50)) ∧
    (∀ off : Option Nat, listRoute tbl ⟨req.limit, off⟩ = listRoute tbl req) ∧
    (getRecentEmbeddings tbl (req.limit.getD 50)).Sorted byRecent ∧
    (getRecentEmbeddings tbl (req.limit.getD 50)).length =
      min (req.limit.getD 50) tbl.length ∧
    ∀ e ∈ getRecentEmbeddings tbl (req.limit.getD 50), ∃ r ∈ tbl, e = rowToEmbedding r := by
  refine ⟨by simp [listRoute, h1, h2], fun off => rfl, ?_, ?_, ?_⟩
  · exact (List.sorted_insertionSort byRecent _).sublist (List.take_sublist _ _)
  · rw [getRecentEmbeddings, List.length_take, List.length_insertionSort, List.length_map]
  · intro e he
    have hmem : e ∈ tbl.map rowToEmbedding :=
      (List.perm_insertionSort byRecent _).subset (List.take_subset _ _ he)
    obtain ⟨r, hr, hre⟩ := List.mem_map.mp hmem
    exact ⟨r, hr, hre.symm⟩

/-- C6 amended witness: with the default limit (no limit given) the
endpoint answers the recent listing; offsets 0 and 7 get the same
answer. -/
theorem listRoute_limit_only_witness :
    listRoute [mkRow 0] ⟨none, some 7⟩ = .ok (getRecentEmbeddings [mkRow 0] 50) ∧
    listRoute [mkRow 0] ⟨none, some 0⟩ = listRoute [mkRow 0] ⟨none, some 7⟩ :=
  ⟨(listRoute_limit_only [mkRow 0] ⟨none, some 7⟩ (by decide) (by decide)).1,
   (listRoute_limit_only [mkRow 0] ⟨none, some 7⟩ (by decide) (by decide)).2.1 (some 0)⟩

/-! ### C9 — sampleRandom is a Fisher–Yates prefix -/

theorem cons_get_set_perm {α : Type} (a : α) (t : List α) :
    ∀ (k : Nat) (hk : k < t.length), t.get ⟨k, hk⟩ :: t.set k a ~ a :: t := by
  induction t with
  | nil => intro k hk; cases hk
  | cons b t ih =>
    intro k hk
    cases k with
    | zero => exact List.Perm.swap a b t
    | succ k =>
      have hk' : k < t.length := Nat.lt_of_succ_lt_succ hk
      calc t.get ⟨k, hk'⟩ :: b :: t.set k a
          ~ b :: t.get ⟨k, hk'⟩ :: t.set k a := List.Perm.swap b (t.get ⟨k, hk'⟩) _
        _ ~ b :: a :: t := (ih k hk').cons b
        _ ~ a :: b :: t := List.Perm.swap a b t

theorem set_get_set_perm {α : Type} :
    ∀ (l : List α) (i j : Nat) (hi : i < l.length) (hj : j < l.length),
      (l.set i (l.get ⟨j, hj⟩)).set j (l.get ⟨i, hi⟩) ~ l := by
  intro l
  induction l with
  | nil => intro i j hi _; cases hi
  | cons a t ih =>
    intro i j hi hj
    cases i with
    | zero =>
      cases j with
      | zero => exact List.Perm.refl _
      | succ k => exact cons_get_set_perm a t k (Nat.lt_of_succ_lt_succ hj)
    | succ m =>
      cases j with
      | zero => exact cons_get_set_perm a t m (Nat.lt_of_succ_lt_succ hi)
      | succ k =>
        exact (ih m k (Nat.lt_of_succ_lt_succ hi) (Nat.lt_of_succ_lt_succ hj)).cons a

theorem listSwap_perm {α : Type} (l : List α) (i j : Nat) : listSwap l i j ~ l := by
  unfold listSwap
  split
  · exact set_get_set_perm l i j (by omega) (by omega)
  · exact List.Perm.refl l

theorem fyLoop_perm {α : Type} (js : Nat → Nat) :
    ∀ (i : Nat) (l : List α), fyLoop js l i ~ l := by
  intro i
  induction i with
  | zero => intro l; exact List.Perm.refl l
  | succ i ih =>
    intro l
    exact (ih (listSwap l (i + 1) (js (i + 1)))).trans
      (listSwap_perm l (i + 1) (js (i + 1)))

/-- C9: `getRandomEmbeddings` reads the full record set, shuffles it in
place with the Fisher–Yates loop (the shuffled list is a permutation of
the table whatever random draws occur), and returns the first `limit`
entries: the result has length `min limit n`, repeats no id when the
table's ids are distinct, and every returned record comes from the
table. -/
theorem getRandom_fisherYates (tbl : List Row) (js : Nat → Nat) (limit : Nat) :
    fyShuffle tbl js ~ tbl ∧
    getRandomEmbeddings tbl js limit =
      ((fyShuffle tbl js).take limit).map rowToEmbedding ∧
    (getRandomEmbeddings tbl js limit).length = min limit tbl.length ∧
    ((tbl.map (·.id)).Nodup → ((getRandomEmbeddings tbl js limit).map (·.id)).Nodup) ∧
    (∀ e ∈ getRandomEmbeddings tbl js limit, ∃ r ∈ tbl, e = rowToEmbedding r) := by
  have hperm : fyShuffle tbl js ~ tbl := fyLoop_perm js (tbl.length - 1) tbl
  refine ⟨hperm, rfl, ?_, ?_, ?_⟩
  · rw [getRandomEmbeddings, List.length_map, List.length_take, hperm.length_eq]
  · intro hnd
    have h2 : ((fyShuffle tbl js).map (·.id)).Nodup :=
      (hperm.map (·.id)).nodup_iff.mpr hnd
    have h3 : (getRandomEmbeddings tbl js limit).map (·.id) =
        ((fyShuffle tbl js).map (·.id)).take limit := by
      rw [getRandomEmbeddings, List.map_map, List.map_take]
      rfl
    rw [h3]
    exact h2.sublist (List.take_sublist _ _)
  · intro e he
    obtain ⟨r, hr, hre⟩ := List.mem_map.mp he
    exact ⟨r, hperm.subset (List.take_subset _ _ hr), hre.symm⟩

/-- C9 witness: sampling 2 of 3 records with the draws that always pick
index 0 yields a duplicate-free pair from the table. -/
theorem getRandom_fisherYates_witness :
    ((getRandomEmbeddings [⟨"a", [], "", "", "", 0⟩, ⟨"b", [], "", "", "", 1⟩,
        ⟨"c", [], "", "", "", 2⟩] (fun _ => 0) 2).map (·.id)).Nodup :=
  (getRandom_fisherYates [⟨"a", [], "", "", "", 0⟩, ⟨"b", [], "", "", "", 1⟩,
      ⟨"c", [], "", "", "", 2⟩] (fun _ => 0) 2).2.2.2.1 (by decide)

/-- C4 amended witness: on the one-row table, a threshold of 1 and no
threshold return the same (sorted) answer. -/
theorem searchEmbeddings_threshold_ignored_witness :
    searchPipeline [thresholdRow] (fun _ _ => 3) [2] 5 (some 1) =
      searchPipeline [thresholdRow] (fun _ _ => 3) [2] 5 none ∧
    ((searchPipeline [thresholdRow] (fun _ _ => 3) [2] 5 (some 1)).map
      (·.distance)).Sorted (· ≤ ·) :=
  ⟨(searchEmbeddings_sorted_limited_threshold_ignored [thresholdRow]
      (fun _ _ => 3) [2] 5 (some 1)).1,
   (searchEmbeddings_sorted_limited_threshold_ignored [thresholdRow]
      (fun _ _ => 3) [2] 5 (some 1)).2.2.1⟩

/-- C5 witness: deleting the only record reports success and deleting it
again changes nothing. -/
theorem delete_removes_idempotent_absent_witness :
    (deleteRoute [⟨"a", [], "", "", "", 0⟩] "a").2 = true ∧
    deleteRoute (deleteRoute [⟨"a", [], "", "", "", 0⟩] "a").1 "a" =
      deleteRoute [⟨"a", [], "", "", "", 0⟩] "a" :=
  ⟨(delete_removes_idempotent_absent [⟨"a", [], "", "", "", 0⟩] "a" 0).1,
   (delete_removes_idempotent_absent [⟨"a", [], "", "", "", 0⟩] "a" 0).2.2.1⟩
